import Mathlib

/-
Verification development for the VIRT name registry and resolver
(repository browser3: Electron main process, Express route handlers in
routes/sites.js, and the mongoose Site schema in models/Site.js).

Strings are modelled as lists of characters (`Str`); every string
operation used by the source (startsWith, endsWith, split, first-occurrence
replace, the two target regexes) is translated explicitly below.
-/

set_option autoImplicit false

namespace V12

/-- Strings of the JS source, modelled as lists of characters. -/
abbrev Str := List Char

/-- Embed a Lean string literal as a `Str`. -/
def str (s : String) : Str := s.data

/-- JS `String.prototype.startsWith`, as a Boolean on character lists. -/
def startsWithB : Str → Str → Bool
  | [], _ => true
  | _ :: _, [] => false
  | a :: as, b :: bs => (a == b) && startsWithB as bs

/-- JS `String.prototype.endsWith`. -/
def endsWithB (p s : Str) : Bool := startsWithB p.reverse s.reverse

/-- JS `String.prototype.toLowerCase` (ASCII letters; the schema option
`lowercase: true` on `domain` lowercases the value on set, and mongoose
also applies the setter to query filters). -/
def lowerS (s : Str) : Str := s.map Char.toLower

/-- JS truthiness of a request field that is either absent (`undefined`)
or a string: `!x` is true exactly when the field is absent or `""`. -/
def truthy : Option Str → Bool
  | some (_ :: _) => true
  | _ => false

/-- JS `String.prototype.split('.')`. -/
def splitDot (s : Str) : List Str := s.splitOn '.'

/-! ### Name Validator (main.js `isValidVirtUrl`, lines 27-33) -/

/-- The four reserved tag suffixes checked with `endsWith`. -/
def validTlds : List Str := [str ".vc", str ".vmc", str ".at", str ".lit"]

/-- main.js lines 27-33: a URL is acceptable iff it starts with the
scheme `virt://` and is a fixed system page or ends with a valid TLD. -/
def isValidVirtUrl (url : Str) : Bool :=
  let isSystemPage :=
    (url == str "virt://register.at") || (url == str "virt://lookin.at") ||
      (url == str "virt://v12browser.vc")
  let hasValidTld := validTlds.any (fun tld => endsWithB tld url)
  startsWithB (str "virt://") url && (isSystemPage || hasValidTld)

/-! ### Target-shape validation (models/Site.js, `target` validator) -/

/-- A character matched by an (unflagged) JS regex `.`: anything except
the four line terminators. -/
def jsDotChar (c : Char) : Bool :=
  !(c == '\n' || c == '\r' || c == Char.ofNat 0x2028 || c == Char.ofNat 0x2029)

/-- JS regex test `^https:\/\/.+` : the string starts with `https://`
followed by at least one non-line-terminator character (the rest of the
string is unconstrained because the pattern is not end-anchored). -/
def isHttpsTarget (s : Str) : Bool :=
  startsWithB (str "https://") s &&
    (match s.drop 8 with
     | [] => false
     | c :: _ => jsDotChar c)

/-- Greedily consume `\d{1,3}` followed by a literal `.` and return the
remainder.  Because `.` is not a digit, the backtracking regex engine
succeeds here exactly when the maximal digit run has length 1-3 and is
followed by `.`; this deterministic reading is equivalent. -/
def octetDot (s : Str) : Option Str :=
  let d := s.takeWhile Char.isDigit
  let rest := s.dropWhile Char.isDigit
  if 1 ≤ d.length && d.length ≤ 3 then
    match rest with
    | '.' :: r => some r
    | _ => none
  else none

/-- JS regex test `^(\d{1,3}\.){3}\d{1,3}(:\d{1,5})?$` : a dotted-quad
IPv4 literal (octets unbounded numerically, as in the source regex) with
an optional `:port` of 1-5 digits, anchored at both ends. -/
def isIpv4Target (s : Str) : Bool :=
  match octetDot s with
  | none => false
  | some s1 =>
    match octetDot s1 with
    | none => false
    | some s2 =>
      match octetDot s2 with
      | none => false
      | some s3 =>
        let d := s3.takeWhile Char.isDigit
        let rest := s3.dropWhile Char.isDigit
        (1 ≤ d.length && d.length ≤ 3) &&
          (match rest with
           | [] => true
           | ':' :: r =>
             let dd := r.takeWhile Char.isDigit
             let rr := r.dropWhile Char.isDigit
             (1 ≤ dd.length && dd.length ≤ 5) && rr.isEmpty
           | _ => false)

/-- models/Site.js target validator: HTTPS URL or IPv4 with optional port. -/
def validTarget (s : Str) : Bool := isHttpsTarget s || isIpv4Target s

/-! ### bcrypt (external library used by the routes)

Functional model of `bcrypt.hash` / `bcrypt.compare`: the digest records
the salt and is recognizable by its fixed prefix; `compare` accepts a key
against a digest produced from that key.  One-wayness is not relied on by
any claim; what matters is that routes store digests and never put them,
or the plaintext, into responses. -/

/-- Model of `bcrypt.hash(key, saltRounds)` with a concrete salt draw. -/
def bcryptHash (salt : Nat) (key : Str) : Str :=
  str "$2b$" ++ str (toString salt) ++ str "$" ++ key

/-- Model of `bcrypt.compare(key, hash)`: accepts exactly the digests that
embed the presented key. -/
def bcryptCompare (key h : Str) : Bool :=
  startsWithB (str "$2b$") h && endsWithB (str "$" ++ key) h

/-! ### The Site schema (models/Site.js) -/

/-- One mongoose `Site` document.  Optional display metadata is `Option`;
timestamps are abstract instants (`Nat`). -/
structure Site where
  domain : Str
  tld : Str
  target : Str
  secretKeyHash : Str
  title : Option Str
  description : Option Str
  verified : Bool
  createdAt : Nat
  lastAccessed : Nat
  keywords : List Str
  bodyText : Option Str
  indexedAt : Nat
deriving DecidableEq, Repr

/-- The reserved TLD enum used by every route and by the schema. -/
def reservedTlds : List Str := [str "vc", str "vmc", str "at", str "lit"]

/-- mongoose validation run by `save()`: `domain` length 3-63 (after the
lowercase setter), `tld` in the enum, the `target` shape validator, and
the maxlength bounds on `title` (100) and `description` (500).  Required
fields are always present in this model. -/
def validateSite (s : Site) : Bool :=
  (3 ≤ s.domain.length && s.domain.length ≤ 63) &&
  reservedTlds.contains s.tld &&
  validTarget s.target &&
  (match s.title with | none => true | some t => t.length ≤ 100) &&
  (match s.description with | none => true | some d => d.length ≤ 500)

/-! ### The raw-base rewrite (routes/sites.js, lookup handler) -/

/-- JS `String.prototype.replace` with a plain-string pattern: replace the
first occurrence only (patterns used by the source are nonempty). -/
def replaceFirst (pat repl : Str) : Str → Str
  | [] => []
  | c :: cs =>
    if startsWithB pat (c :: cs) then repl ++ (c :: cs).drop pat.length
    else c :: replaceFirst pat repl cs

/-- JS `.replace(/\/$/, '')`: drop a single trailing slash if present. -/
def stripTrailingSlash (s : Str) : Str :=
  if s.getLast? = some '/' then s.dropLast else s

/-- routes/sites.js lines 685-691: rewrite a GitHub web URL into its
raw-content base (host substitution, first `/blob/` collapsed, trailing
slash normalized then appended); any other target is left unchanged. -/
def rewriteRawBase (t : Str) : Str :=
  if startsWithB (str "https://github.com/") t then
    stripTrailingSlash
      (replaceFirst (str "/blob/") (str "/")
        (replaceFirst (str "github.com") (str "raw.githubusercontent.com") t)) ++ str "/"
  else t

/-! ### Wire responses (routes/sites.js) -/

/-- One entry of a `/search` result: the projection the route applies to
each matching document (lines 725-730). -/
structure SearchItem where
  domain : Str
  tld : Str
  title : Option Str
  description : Option Str
deriving DecidableEq, Repr

/-- The JSON bodies the six routes produce. -/
inductive Body where
  | err (msg : Str)
  | check (domain tld : Str) (available : Bool) (msg : Str)
  | register (success : Bool) (domain secretKey msg : Str)
  | update (success : Bool) (msg : Str) (domain tld target : Str)
      (title description : Option Str) (lastAccessed : Nat)
  | del (success : Bool) (msg : Str)
  | lookup (domain tld target rawBase : Str) (title description : Option Str)
      (verified : Bool) (createdAt lastAccessed : Nat)
  | search (items : List SearchItem)
deriving DecidableEq, Repr

/-- An HTTP response: status code plus JSON body. -/
structure Resp where
  status : Nat
  body : Body
deriving DecidableEq, Repr

/-- `Site.findOne({domain, tld})` over the modelled collection. -/
def findSite (state : List Site) (d t : Str) : Option Site :=
  state.find? (fun r => r.domain == d && r.tld == t)

/-- Persisting a mutated document (`site.save()` after `findOne`): replace
the record with that key. -/
def saveReplace (state : List Site) (d t : Str) (site' : Site) : List Site :=
  state.map (fun r => if r.domain == d && r.tld == t then site' else r)

/-! ### Routes -/

/-- GET `/api/check/:domain?tld=` (lines 493-515).  `!tld` is JS
truthiness; the query setter lowercases the domain filter. -/
def checkRoute (state : List Site) (domain : Str) (tld : Option Str) : Resp :=
  if !truthy tld || !reservedTlds.contains (tld.getD []) then
    ⟨400, .err (str "Invalid TLD")⟩
  else
    let t := tld.getD []
    let available := (findSite state (lowerS domain) t).isNone
    ⟨200, .check domain t available
      (if available then str "Domain is available" else str "Domain is already registered")⟩

/-- The fixed-prefix secret key generated at registration
(`v12-` ++ 16 hex characters); the random draw is a parameter. -/
def mkSecretKey (rand : Str) : Str := str "v12-" ++ rand

/-- The message returned with a successful registration. -/
def saveKeyMsg : Str := str "SAVE THIS KEY! If you lose it, you cannot update your site."

/-- The new document built by POST `/api/register` (lines 546-553) with
the schema defaults of models/Site.js applied. -/
def regSite (d t tg : Str) (title description : Option Str) (rand : Str) (salt now : Nat) :
    Site :=
  { domain := lowerS d, tld := t, target := tg,
    secretKeyHash := bcryptHash salt (mkSecretKey rand),
    title := title, description := description,
    verified := false, createdAt := now, lastAccessed := now,
    keywords := [], bodyText := none, indexedAt := now }

/-- POST `/api/register` (lines 518-571).  `newSite.save()` first runs the
schema validation (a `ValidationError` is surfaced as 400 by the catch
block) and then inserts; the schema's `unique: true` index on `domain`
alone makes the insert fail with a duplicate-key error — not a
`ValidationError` — whenever any record with the same (lowercased) domain
exists under any tld, which the catch block turns into a 500. -/
def registerRoute (state : List Site) (domain tld target title description : Option Str)
    (rand : Str) (salt now : Nat) : Resp × List Site :=
  if !(truthy domain && truthy tld && truthy target) then
    (⟨400, .err (str "Missing required fields")⟩, state)
  else
    let d := domain.getD []
    let t := tld.getD []
    let tg := target.getD []
    if !reservedTlds.contains t then (⟨400, .err (str "Invalid TLD")⟩, state)
    else if (findSite state (lowerS d) t).isSome then
      (⟨409, .err (str "Domain already registered")⟩, state)
    else
      let site := regSite d t tg title description rand salt now
      if !validateSite site then (⟨400, .err (str "Validation failed")⟩, state)
      else if state.any (fun r => r.domain == site.domain) then
        (⟨500, .err (str "Server error")⟩, state)
      else
        (⟨201, .register true (d ++ str "." ++ t) (mkSecretKey rand) saveKeyMsg⟩,
         state ++ [site])

/-- The partial update applied by PUT `/api/update` (lines 600-604):
`if (target)` is truthiness (an empty string does not overwrite), while
`title`/`description` are applied whenever not `undefined`, so an
explicit empty string clears them; `lastAccessed` is refreshed. -/
def applyUpdate (site : Site) (target title description : Option Str) (now : Nat) : Site :=
  { site with
    target := match target with
      | some tg => if tg.isEmpty then site.target else tg
      | none => site.target,
    title := match title with
      | some ti => some ti
      | none => site.title,
    description := match description with
      | some de => some de
      | none => site.description,
    lastAccessed := now }

/-- PUT `/api/update` (lines 574-624).  A `save()` validation failure is
caught by the route's single generic catch, yielding 500. -/
def updateRoute (state : List Site) (domain tld secretKey target title description : Option Str)
    (now : Nat) : Resp × List Site :=
  if !(truthy domain && truthy tld && truthy secretKey) then
    (⟨400, .err (str "Missing required fields")⟩, state)
  else
    let d := domain.getD []
    let t := tld.getD []
    let sk := secretKey.getD []
    if !reservedTlds.contains t then (⟨400, .err (str "Invalid TLD")⟩, state)
    else
      match findSite state (lowerS d) t with
      | none => (⟨404, .err (str "Domain not found")⟩, state)
      | some site =>
        if !bcryptCompare sk site.secretKeyHash then
          (⟨401, .err (str "Invalid secret key")⟩, state)
        else
          let site' := applyUpdate site target title description now
          if !validateSite site' then (⟨500, .err (str "Server error")⟩, state)
          else
            (⟨200, .update true (str "Domain updated successfully")
              site'.domain site'.tld site'.target site'.title site'.description
              site'.lastAccessed⟩,
             saveReplace state (lowerS d) t site')

/-- DELETE `/api/delete` (lines 627-664): same gate sequence as update;
deletion removes the found document. -/
def deleteRoute (state : List Site) (domain tld secretKey : Option Str) : Resp × List Site :=
  if !(truthy domain && truthy tld && truthy secretKey) then
    (⟨400, .err (str "Missing required fields")⟩, state)
  else
    let d := domain.getD []
    let t := tld.getD []
    let sk := secretKey.getD []
    if !reservedTlds.contains t then (⟨400, .err (str "Invalid TLD")⟩, state)
    else
      match findSite state (lowerS d) t with
      | none => (⟨404, .err (str "Domain not found")⟩, state)
      | some site =>
        if !bcryptCompare sk site.secretKeyHash then
          (⟨401, .err (str "Invalid secret key")⟩, state)
        else
          (⟨200, .del true (str "Domain deleted successfully")⟩,
           state.eraseP (fun r => r.domain == lowerS d && r.tld == t))

/-- GET `/api/lookup/:domain/:tld` (lines 667-708): refresh
`lastAccessed`, persist, respond with the record plus the rewritten raw
base.  `save()` re-validates the document (vacuous for records that were
valid when stored, since the timestamp does not take part in validation). -/
def lookupRoute (state : List Site) (domain tld : Str) (now : Nat) : Resp × List Site :=
  if !reservedTlds.contains tld then (⟨400, .err (str "Invalid TLD")⟩, state)
  else
    match findSite state (lowerS domain) tld with
    | none => (⟨404, .err (str "Domain not found")⟩, state)
    | some site =>
      let site' := { site with lastAccessed := now }
      if !validateSite site' then (⟨500, .err (str "Server error")⟩, state)
      else
        (⟨200, .lookup site.domain site.tld site.target (rewriteRawBase site.target)
          site.title site.description site.verified site.createdAt now⟩,
         saveReplace state (lowerS domain) tld site')

/-! ### Search (GET `/api/search`, lines 711-735)

The route delegates matching and ranking to MongoDB's `$text` index with
the weights declared in models/Site.js (title 10, keywords 5,
description 3, bodyText 1), sorts by the metadata score descending, and
truncates at 20.  The index semantics live in MongoDB, so matching is
modelled as substring containment weighted per the schema; the claims
settled here depend only on the results being drawn from the collection
and projected to display fields. -/

/-- Substring containment (the modelled text match). -/
def containsB (needle : Str) : Str → Bool
  | [] => startsWithB needle []
  | c :: cs => startsWithB needle (c :: cs) || containsB needle cs

/-- The weighted text score from the schema's index declaration. -/
def textScore (q : Str) (r : Site) : Nat :=
  (if containsB q (r.title.getD []) then 10 else 0) +
  (if r.keywords.any (fun k => containsB q k) then 5 else 0) +
  (if containsB q (r.description.getD []) then 3 else 0) +
  (if containsB q (r.bodyText.getD []) then 1 else 0)

/-- Insert into a list kept in descending score order. -/
def insertByScore (q : Str) (r : Site) : List Site → List Site
  | [] => [r]
  | x :: xs =>
    if textScore q x < textScore q r then r :: x :: xs
    else x :: insertByScore q r xs

/-- Stable sort by descending text score. -/
def sortByScore (q : Str) : List Site → List Site
  | [] => []
  | x :: xs => insertByScore q x (sortByScore q xs)

/-- GET `/api/search` (lines 711-735). -/
def searchRoute (state : List Site) (q : Option Str) : Resp :=
  if !truthy q then ⟨400, .err (str "Query parameter required")⟩
  else
    let qv := q.getD []
    let results := (sortByScore qv (state.filter (fun r => 0 < textScore qv r))).take 20
    ⟨200, .search (results.map (fun r => ⟨r.domain, r.tld, r.title, r.description⟩))⟩

/-! ### The resolver (main.js `protocol.handle('virt')`, lines 95-220)

The registered-name path (lines 166-219) is modelled as a function of the
two network outcomes.  A promise outcome is `Fetch`; awaited rejections
are caught by the enclosing try (the DNS lookup at line 170 and the
`json()` at line 173 fall through to the unregistered placeholder), but
the content fetch at line 177 is returned without `await`, so its
rejection happens after the handler's try/catch frames are gone: the
handler's own promise rejects and the catch at line 178 never runs. -/

/-- The outcome of a JS promise: fulfilled or rejected. -/
inductive Fetch (α : Type) where
  | ok (v : α)
  | reject
deriving DecidableEq, Repr

/-- What the resolver uses from the DNS lookup response: `dnsResponse.ok`
and `siteData.target`. -/
structure DnsOk where
  okFlag : Bool
  target : Str
deriving DecidableEq, Repr

/-- What the protocol handler's promise settles to. -/
inductive PResult where
  /-- Resolved with the upstream response of `net.fetch(target)`. -/
  | remote (target : Str)
  /-- Resolved with a locally built HTML document. -/
  | html (doc : Str)
  /-- The handler's promise itself rejected (unhandled failure). -/
  | rejected
deriving DecidableEq, Repr

/-- The placeholder served when the domain is not registered or the DNS
lookup failed (lines 200-214; whitespace of the template normalized). -/
def notRegisteredHtml (hostname : Str) : Str :=
  str "<!DOCTYPE html><html><head><title>V12 Browser</title></head><body><h1>Welcome to V12 Browser</h1><p>The domain <strong>" ++
    hostname ++
    str "</strong> is not yet registered.</p><p><a href=\"virt://register.at\">Register this domain now!</a></p></body></html>"

/-- The fallback the source builds for a failed content fetch
(lines 180-191; whitespace normalized).  Unreachable for rejected
fetches, as proved below. -/
def failedLoadHtml (hostname : Str) : Str :=
  str "<!DOCTYPE html><html><head><title>V12 Browser</title></head><body><h1>Welcome to V12 Browser</h1><p>Failed to load content for <strong>" ++
    hostname ++
    str "</strong>.</p><p><a href=\"virt://register.at\">Register this domain now!</a></p></body></html>"

/-- main.js lines 166-219 for a non-system hostname: split the hostname,
query the registrar, and serve the target's content or a placeholder.
`dns` is the awaited outcome of the lookup (collapsing the `fetch` and
`json()` awaits, both covered by the catch at line 194); `fetchTarget`
gives the outcome of `net.fetch` on a target URL. -/
def handleVirtHost (hostname : Str) (dns : Fetch DnsOk)
    (fetchTarget : Str → Fetch Unit) : PResult :=
  match splitDot hostname with
  | d :: t :: _ =>
    if !d.isEmpty && !t.isEmpty then
      match dns with
      | .reject => .html (notRegisteredHtml hostname)
      | .ok data =>
        if data.okFlag then
          match fetchTarget data.target with
          | .ok _ => .remote data.target
          | .reject => .rejected
        else .html (notRegisteredHtml hostname)
    else .html (notRegisteredHtml hostname)
  | _ => .html (notRegisteredHtml hostname)

/-! ### Observable strings of a response (used for claim C8) -/

/-- The strings contributed by an optional JSON field. -/
def optL : Option Str → List Str
  | none => []
  | some s => [s]

/-- Every string value occurring in a response body, as serialized by the
route's `res.json` call. -/
def bodyStrings : Body → List Str
  | .err m => [m]
  | .check d t _ m => [d, t, m]
  | .register _ d k m => [d, k, m]
  | .update _ m d t tg ti de _ => [m, d, t, tg] ++ optL ti ++ optL de
  | .del _ m => [m]
  | .lookup d t tg rb ti de _ _ _ => [d, t, tg, rb] ++ optL ti ++ optL de
  | .search items =>
    items.flatMap (fun i => [i.domain, i.tld] ++ optL i.title ++ optL i.description)

/-- The non-secret data of the store: display fields, targets and their
rewrites.  `secretKeyHash` deliberately does not contribute. -/
def displayStrings (state : List Site) : List Str :=
  state.flatMap (fun r =>
    [r.domain, r.tld, r.target, rewriteRawBase r.target] ++ optL r.title ++ optL r.description)

/-- The fixed literal messages of routes/sites.js. -/
def fixedMessages : List Str :=
  [str "Invalid TLD", str "Domain is available", str "Domain is already registered",
   str "Missing required fields", str "Domain not found", str "Invalid secret key",
   str "Domain updated successfully", str "Domain deleted successfully",
   str "Server error", str "Query parameter required"]

/-- The JSON keys of the successful registration body, exactly as the
`res.json` literal at lines 558-563 writes them: the composed name is
serialized under the key `domain`, and no key `name` exists. -/
def registerRespKeys : List Str :=
  [str "success", str "domain", str "secretKey", str "message"]

/-- The string-valued (key, value) pairs of a registration body as
serialized at lines 558-563. -/
def registerFields : Body → List (Str × Str)
  | .register _ d k m => [(str "domain", d), (str "secretKey", k), (str "message", m)]
  | _ => []

/-! ### Auxiliary predicates used by the proofs -/

/-- `cantMatch pat suf` decides that `pat` cannot start at the beginning
of `suf ++ z` for any continuation `z`: the two disagree within their
common length. -/
def cantMatch (pat suf : Str) : Bool :=
  if pat.length ≤ suf.length then !startsWithB pat suf else !startsWithB suf pat

/-- No position inside `pre` can begin an occurrence of `pat`, whatever
follows `pre`. -/
def noStartIn (pat : Str) : Str → Bool
  | [] => true
  | c :: cs => cantMatch pat (c :: cs) && noStartIn pat cs

/-- A registered record used by the concrete evaluations below. -/
def siteA : Site :=
  { domain := str "myapp", tld := str "vc", target := str "https://example.com/a",
    secretKeyHash := bcryptHash 3 (mkSecretKey (str "aa11bb22cc33dd44")),
    title := none, description := none, verified := false,
    createdAt := 0, lastAccessed := 0, keywords := [], bodyText := none, indexedAt := 0 }

/-! ### Lemmas about the string primitives -/

theorem startsWithB_iff : ∀ (p s : Str), startsWithB p s = true ↔ ∃ r, s = p ++ r
  | [], s => by simp [startsWithB]
  | a :: as, [] => by simp [startsWithB]
  | a :: as, b :: bs => by
    simp only [startsWithB, Bool.and_eq_true, beq_iff_eq, startsWithB_iff as bs,
      List.cons_append, List.cons.injEq]
    constructor
    · rintro ⟨rfl, r, rfl⟩
      exact ⟨r, rfl, rfl⟩
    · rintro ⟨r, rfl, rfl⟩
      exact ⟨rfl, r, rfl⟩

theorem startsWithB_append (p r : Str) : startsWithB p (p ++ r) = true :=
  (startsWithB_iff p (p ++ r)).mpr ⟨r, rfl⟩


theorem startsWithB_append_eq_false_of_cantMatch :
    ∀ (pat suf : Str), cantMatch pat suf = true → ∀ z, startsWithB pat (suf ++ z) = false
  | [], suf, h, _ => by simp [cantMatch, startsWithB] at h
  | _ :: _, [], h, _ => by simp [cantMatch, startsWithB] at h
  | a :: as, b :: bs, h, z => by
    by_cases hab : a = b
    · subst hab
      have h' : cantMatch as bs = true := by
        simpa [cantMatch, startsWithB, Nat.add_le_add_iff_right] using h
      have := startsWithB_append_eq_false_of_cantMatch as bs h' z
      simpa [startsWithB] using this
    · have hf : (a == b) = false := by simpa using hab
      simp [startsWithB, List.cons_append, hf]


theorem replaceFirst_append_of_noStartIn (pat repl : Str) :
    ∀ (pre : Str), noStartIn pat pre = true → ∀ z,
      replaceFirst pat repl (pre ++ z) = pre ++ replaceFirst pat repl z
  | [], _, _ => by simp
  | c :: cs, h, z => by
    simp only [noStartIn, Bool.and_eq_true] at h
    have hfalse := startsWithB_append_eq_false_of_cantMatch pat (c :: cs) h.1 z
    have ih := replaceFirst_append_of_noStartIn pat repl cs h.2 z
    simp only [List.cons_append]
    rw [replaceFirst]
    simp only [List.cons_append] at hfalse
    rw [hfalse]
    simp [ih]

theorem replaceFirst_of_head (pat repl z : Str) (h : pat ≠ []) :
    replaceFirst pat repl (pat ++ z) = repl ++ z := by
  cases pat with
  | nil => exact absurd rfl h
  | cons a as =>
    show replaceFirst (a :: as) repl (a :: (as ++ z)) = repl ++ z
    rw [replaceFirst]
    have hp : startsWithB (a :: as) (a :: (as ++ z)) = true := startsWithB_append (a :: as) z
    rw [hp]
    simp [List.drop_left]

theorem replaceFirst_ne_nil (pat repl : Str) (s : Str) (hs : s ≠ []) (hr : repl ≠ []) :
    replaceFirst pat repl s ≠ [] := by
  cases s with
  | nil => exact absurd rfl hs
  | cons c cs =>
    rw [replaceFirst]
    by_cases h : startsWithB pat (c :: cs) = true
    · rw [h]
      simp [hr]
    · rw [Bool.not_eq_true] at h
      rw [h]
      simp

/-! ### Shape of a rewritten raw base (claim C9 and C3) -/

/-- If the rewrite fires, the result begins with the raw host — in
particular it no longer begins with `https://github.com/`. -/
theorem rewriteRawBase_shape (t : Str)
    (h : startsWithB (str "https://github.com/") t = true) :
    ∃ w, rewriteRawBase t = str "https://raw.githubusercontent.com" ++ w := by
  obtain ⟨r, rfl⟩ := (startsWithB_iff _ _).mp h
  have e2 : replaceFirst (str "github.com") (str "raw.githubusercontent.com")
      (str "https://github.com/" ++ r) = str "https://raw.githubusercontent.com" ++ ('/' :: r) := by
    have e : str "https://github.com/" ++ r = str "https://" ++ (str "github.com" ++ ('/' :: r)) := rfl
    rw [e, replaceFirst_append_of_noStartIn _ _ _ (by decide),
      replaceFirst_of_head _ _ _ (by decide)]
    rfl
  have e3 : replaceFirst (str "/blob/") (str "/")
      (str "https://raw.githubusercontent.com" ++ ('/' :: r))
      = str "https://raw.githubusercontent.com" ++ replaceFirst (str "/blob/") (str "/") ('/' :: r) :=
    replaceFirst_append_of_noStartIn _ _ _ (by decide) ('/' :: r)
  have hv : replaceFirst (str "/blob/") (str "/") ('/' :: r) ≠ [] :=
    replaceFirst_ne_nil _ _ _ (by simp) (by decide)
  rw [rewriteRawBase, if_pos h, e2, e3]
  set v := replaceFirst (str "/blob/") (str "/") ('/' :: r) with hvdef
  by_cases hl : (str "https://raw.githubusercontent.com" ++ v).getLast? = some '/'
  · rw [stripTrailingSlash, if_pos hl,
      List.dropLast_append_of_ne_nil (str "https://raw.githubusercontent.com") hv]
    exact ⟨v.dropLast ++ str "/", by rw [List.append_assoc]⟩
  · rw [stripTrailingSlash, if_neg hl]
    exact ⟨v ++ str "/", by rw [List.append_assoc]⟩

theorem rewriteRawBase_of_not (s : Str)
    (h : startsWithB (str "https://github.com/") s = false) : rewriteRawBase s = s := by
  simp [rewriteRawBase, h]

/-- C9: the lookup rewrite is a no-op away from the recognized host
prefix, and applying it twice equals applying it once. -/
theorem c9_rewrite_idempotent (t : Str) :
    (startsWithB (str "https://github.com/") t = false → rewriteRawBase t = t) ∧
    rewriteRawBase (rewriteRawBase t) = rewriteRawBase t := by
  refine ⟨fun h => rewriteRawBase_of_not t h, ?_⟩
  by_cases h : startsWithB (str "https://github.com/") t = true
  · obtain ⟨w, hw⟩ := rewriteRawBase_shape t h
    have hfalse : startsWithB (str "https://github.com/") (rewriteRawBase t) = false := by
      rw [hw]
      exact startsWithB_append_eq_false_of_cantMatch _ _ (by decide) w
    exact rewriteRawBase_of_not _ hfalse
  · rw [Bool.not_eq_true] at h
    rw [rewriteRawBase_of_not t h, rewriteRawBase_of_not t h]

/-- Witness for C9 at a concrete already-raw URL. -/
theorem c9_rewrite_idempotent_witness :
    startsWithB (str "https://github.com/") (str "https://raw.githubusercontent.com/u/r/") = false ∧
    rewriteRawBase (str "https://raw.githubusercontent.com/u/r/")
      = str "https://raw.githubusercontent.com/u/r/" :=
  ⟨by decide, (c9_rewrite_idempotent (str "https://raw.githubusercontent.com/u/r/")).1 (by decide)⟩

/-! ### Claim C4: the navigation validator -/

/-- C4: `isValidVirtUrl` accepts exactly the `virt://`-prefixed strings
that are one of the three fixed system names or end in one of the four
reserved tag suffixes; any `https://` URL is rejected by it, and the
listed concrete examples behave as stated. -/
theorem c4_validator_characterization :
    (∀ u : Str, isValidVirtUrl u = true ↔
      (startsWithB (str "virt://") u = true ∧
        (u = str "virt://register.at" ∨ u = str "virt://lookin.at" ∨
          u = str "virt://v12browser.vc" ∨
          endsWithB (str ".vc") u = true ∨ endsWithB (str ".vmc") u = true ∨
          endsWithB (str ".at") u = true ∨ endsWithB (str ".lit") u = true))) ∧
    (∀ u : Str, startsWithB (str "https://") u = true → isValidVirtUrl u = false) ∧
    isValidVirtUrl (str "") = false ∧
    isValidVirtUrl (str "virt://") = false ∧
    isValidVirtUrl (str "virt://abc.com") = false ∧
    isValidVirtUrl (str "https://example.com") = false ∧
    isValidVirtUrl (str "virt://lookin.at") = true ∧
    isValidVirtUrl (str "virt://abc.vc") = true := by
  refine ⟨?_, ?_, by decide, by decide, by decide, by decide, by decide, by decide⟩
  · intro u
    simp only [isValidVirtUrl, validTlds, List.any_cons, List.any_nil,
      Bool.and_eq_true, Bool.or_eq_true, beq_iff_eq, Bool.false_eq_true, or_false]
    tauto
  · intro u h
    obtain ⟨r, rfl⟩ := (startsWithB_iff _ _).mp h
    have e : str "https://" ++ r = 'h' :: (str "ttps://" ++ r) := rfl
    rw [e]
    simp [isValidVirtUrl, startsWithB]

/-- Witness for C4 at a concrete accepted name. -/
theorem c4_validator_characterization_witness :
    isValidVirtUrl (str "virt://abc.vc") = true :=
  (c4_validator_characterization.1 (str "virt://abc.vc")).mpr (by decide)

/-! ### Claim C1: label uniqueness across tags -/


/-- C1 (bug evaluation): with `myapp.vc` registered, registering
`myapp.at` — same label, different reserved tag, valid target — does not
succeed: the schema's unique index on `domain` alone aborts the insert
and the route answers a generic 500, even though the availability check
for the very same pair answers `available: true`. -/
theorem c1_same_label_other_tag_regression :
    registerRoute [siteA] (some (str "myapp")) (some (str "at"))
        (some (str "https://example.com/b")) none none (str "ff00ff00ff00ff00") 5 1
      = (⟨500, .err (str "Server error")⟩, [siteA]) ∧
    checkRoute [siteA] (str "myapp") (some (str "at"))
      = ⟨200, .check (str "myapp") (str "at") true (str "Domain is available")⟩ := by
  exact ⟨by decide, by decide⟩

/-! ### Claim C2: fetch failure after a successful lookup -/

/-- C2 (bug evaluation): for a registered name whose lookup succeeds, a
rejected content fetch leaves the protocol handler's promise rejected —
the fallback document built at lines 180-191 is never returned — while a
fulfilled fetch resolves with the upstream content. -/
theorem c2_fetch_failure_propagates :
    handleVirtHost (str "myapp.vc") (.ok ⟨true, str "https://example.com/site/"⟩)
        (fun _ => .reject) = .rejected ∧
    (∀ doc : Str, PResult.rejected ≠ .html doc) ∧
    handleVirtHost (str "myapp.vc") (.ok ⟨true, str "https://example.com/site/"⟩)
        (fun _ => .ok ()) = .remote (str "https://example.com/site/") := by
  refine ⟨by decide, fun doc => by simp, by decide⟩

/-! ### The register success path (shared by C3 and C5) -/

theorem truthy_some (d : Str) (h : d ≠ []) : truthy (some d) = true := by
  cases d with
  | nil => exact absurd rfl h
  | cons c cs => rfl

theorem registerRoute_success (state : List Site) (d t tg : Str) (ti de : Option Str)
    (rand : Str) (salt now : Nat)
    (hd : d ≠ []) (ht : reservedTlds.contains t = true) (htg : tg ≠ [])
    (hfresh : findSite state (lowerS d) t = none)
    (hval : validateSite (regSite d t tg ti de rand salt now) = true)
    (hdom : state.any (fun r => r.domain == lowerS d) = false) :
    registerRoute state (some d) (some t) (some tg) ti de rand salt now
      = (⟨201, .register true (d ++ str "." ++ t) (mkSecretKey rand) saveKeyMsg⟩,
         state ++ [regSite d t tg ti de rand salt now]) := by
  have htld' : t ≠ [] := by
    intro h
    subst h
    simp [reservedTlds, str] at ht
  simp only [registerRoute, truthy_some d hd, truthy_some t htld', truthy_some tg htg,
    Bool.and_self, Bool.not_true, Bool.false_and, Bool.and_true, Bool.true_and,
    Bool.if_false_left, Option.getD_some, ht, hfresh, Option.isSome_none, hval]
  simp [regSite, hdom]

/-! ### Claim C3: register/lookup roundtrip and the raw-base rewrite -/

/-- C3: after a successful registration of `(label, tag, target)`, an
immediate lookup answers 200 with the same target; `rawBase` equals
`target` whenever the target does not start with `https://github.com/`,
and otherwise is the host-substituted, `/blob/`-collapsed,
slash-normalized form, which ends in `/`. -/
theorem c3_register_lookup_roundtrip (state : List Site) (d t tg : Str) (ti de : Option Str)
    (rand : Str) (salt now now' : Nat)
    (hd : d ≠ []) (ht : reservedTlds.contains t = true) (htg : tg ≠ [])
    (hfresh : findSite state (lowerS d) t = none)
    (hval : validateSite (regSite d t tg ti de rand salt now) = true)
    (hdom : state.any (fun r => r.domain == lowerS d) = false) :
    (registerRoute state (some d) (some t) (some tg) ti de rand salt now).1.status = 201 ∧
    (lookupRoute (registerRoute state (some d) (some t) (some tg) ti de rand salt now).2
        d t now').1
      = ⟨200, .lookup (lowerS d) t tg (rewriteRawBase tg) ti de false now now'⟩ ∧
    (startsWithB (str "https://github.com/") tg = false → rewriteRawBase tg = tg) ∧
    (startsWithB (str "https://github.com/") tg = true →
      rewriteRawBase tg
        = stripTrailingSlash
            (replaceFirst (str "/blob/") (str "/")
              (replaceFirst (str "github.com") (str "raw.githubusercontent.com") tg))
            ++ str "/" ∧
      (rewriteRawBase tg).getLast? = some '/') := by
  have hreg := registerRoute_success state d t tg ti de rand salt now hd ht htg hfresh hval hdom
  refine ⟨by rw [hreg], ?_, fun h => rewriteRawBase_of_not tg h, fun h => ⟨?_, ?_⟩⟩
  · rw [hreg]
    set site := regSite d t tg ti de rand salt now with hsite
    have hfind : findSite (state ++ [site]) (lowerS d) t = some site := by
      rw [findSite, List.find?_append]
      rw [findSite] at hfresh
      rw [hfresh]
      simp [hsite, regSite]
    have hval' : validateSite { site with lastAccessed := now' } = true := hval
    simp only [lookupRoute, ht, Bool.not_true, Bool.false_eq_true, if_false, hfind, hval']
    simp [hsite, regSite]
  · rw [rewriteRawBase, if_pos h]
  · rw [rewriteRawBase, if_pos h]
    exact List.getLast?_concat _

/-- Witness for C3: the end-to-end example of the specification,
`register ("myapp","vc","https://github.com/u/r")` then lookup. -/
theorem c3_register_lookup_roundtrip_witness :
    (lookupRoute
        (registerRoute [] (some (str "myapp")) (some (str "vc"))
          (some (str "https://github.com/u/r")) none none (str "aa11bb22cc33dd44") 7 100).2
        (str "myapp") (str "vc") 200).1
      = ⟨200, .lookup (str "myapp") (str "vc") (str "https://github.com/u/r")
          (rewriteRawBase (str "https://github.com/u/r")) none none false 100 200⟩ ∧
    rewriteRawBase (str "https://github.com/u/r") = str "https://raw.githubusercontent.com/u/r/" := by
  refine ⟨?_, by decide⟩
  have h := c3_register_lookup_roundtrip [] (str "myapp") (str "vc")
    (str "https://github.com/u/r") none none (str "aa11bb22cc33dd44") 7 100 200
    (by decide) (by decide) (by decide) (by decide) (by decide) (by decide)
  have e : lowerS (str "myapp") = str "myapp" := by decide
  rw [← e]
  exact h.2.1

/-! ### Claim C5: the successful registration response -/

/-- C5 as amended: a successful registration answers 201 with `success`,
the composed `label.tag` name — serialized under the field `domain`, not
`name` — the freshly generated plaintext secret (a `v12-`-prefixed
token) and the warning message; the store receives only the bcrypt
digest of that secret, which differs from the plaintext. -/
theorem c5_register_response (state : List Site) (d t tg : Str) (ti de : Option Str)
    (rand : Str) (salt now : Nat)
    (hd : d ≠ []) (ht : reservedTlds.contains t = true) (htg : tg ≠ [])
    (hfresh : findSite state (lowerS d) t = none)
    (hval : validateSite (regSite d t tg ti de rand salt now) = true)
    (hdom : state.any (fun r => r.domain == lowerS d) = false) :
    registerRoute state (some d) (some t) (some tg) ti de rand salt now
      = (⟨201, .register true (d ++ str "." ++ t) (mkSecretKey rand) saveKeyMsg⟩,
         state ++ [regSite d t tg ti de rand salt now]) ∧
    registerFields (.register true (d ++ str "." ++ t) (mkSecretKey rand) saveKeyMsg)
      = [(str "domain", d ++ str "." ++ t), (str "secretKey", mkSecretKey rand),
         (str "message", saveKeyMsg)] ∧
    ¬str "name" ∈ registerRespKeys ∧
    startsWithB (str "v12-") (mkSecretKey rand) = true ∧
    (regSite d t tg ti de rand salt now).secretKeyHash = bcryptHash salt (mkSecretKey rand) ∧
    bcryptHash salt (mkSecretKey rand) ≠ mkSecretKey rand := by
  refine ⟨registerRoute_success state d t tg ti de rand salt now hd ht htg hfresh hval hdom,
    rfl, by decide, startsWithB_append (str "v12-") rand, rfl, ?_⟩
  intro h
  have : ('$' : Char) = 'v' := by
    have e1 : bcryptHash salt (mkSecretKey rand) = '$' :: (str "2b$" ++ str (toString salt) ++ str "$" ++ mkSecretKey rand) := by
      simp [bcryptHash, str]
    have e2 : mkSecretKey rand = 'v' :: (str "12-" ++ rand) := rfl
    rw [e1, e2] at h
    exact (List.cons.injEq _ _ _ _ ▸ h).1
  simp at this

/-- Witness for C5 at concrete registration input. -/
theorem c5_register_response_witness :
    registerRoute [] (some (str "myapp")) (some (str "vc"))
        (some (str "https://example.com/a")) none none (str "aa11bb22cc33dd44") 7 100
      = (⟨201, .register true (str "myapp.vc") (mkSecretKey (str "aa11bb22cc33dd44")) saveKeyMsg⟩,
         [regSite (str "myapp") (str "vc") (str "https://example.com/a") none none
            (str "aa11bb22cc33dd44") 7 100]) ∧
    startsWithB (str "v12-") (mkSecretKey (str "aa11bb22cc33dd44")) = true := by
  have h := c5_register_response [] (str "myapp") (str "vc") (str "https://example.com/a")
    none none (str "aa11bb22cc33dd44") 7 100
    (by decide) (by decide) (by decide) (by decide) (by decide) (by decide)
  refine ⟨?_, h.2.2.2.1⟩
  have e : str "myapp" ++ str "." ++ str "vc" = str "myapp.vc" := by decide
  rw [← e]
  exact h.1

/-- C5 counterexample to the claim as stated: the successful 201
registration response carries the composed `myapp.vc` under the JSON key
`domain` (routes/sites.js line 560); no key `name` exists among the
body's keys, so the composed name is not returned under a field `name`. -/
theorem c5_name_field_counterexample :
    (registerRoute [] (some (str "myapp")) (some (str "vc"))
        (some (str "https://example.com/a")) none none
        (str "aa11bb22cc33dd44") 7 100).1.status = 201 ∧
    (str "domain", str "myapp.vc")
      ∈ registerFields (registerRoute [] (some (str "myapp")) (some (str "vc"))
          (some (str "https://example.com/a")) none none
          (str "aa11bb22cc33dd44") 7 100).1.body ∧
    ¬str "name"
      ∈ (registerFields (registerRoute [] (some (str "myapp")) (some (str "vc"))
          (some (str "https://example.com/a")) none none
          (str "aa11bb22cc33dd44") 7 100).1.body).map Prod.fst ∧
    ¬str "name" ∈ registerRespKeys := by
  exact ⟨by decide, by decide, by decide, by decide⟩

/-! ### Update and delete -/

theorem reservedTlds_ne_nil (t : Str) (ht : reservedTlds.contains t = true) : t ≠ [] := by
  intro h
  subst h
  exact absurd ht (by decide)

theorem updateRoute_success (state : List Site) (d t sk : Str)
    (tgIn tiIn deIn : Option Str) (now : Nat) (site : Site)
    (hd : d ≠ []) (hsk : sk ≠ []) (ht : reservedTlds.contains t = true)
    (hfind : findSite state (lowerS d) t = some site)
    (hauth : bcryptCompare sk site.secretKeyHash = true)
    (hval : validateSite (applyUpdate site tgIn tiIn deIn now) = true) :
    updateRoute state (some d) (some t) (some sk) tgIn tiIn deIn now
      = (⟨200, .update true (str "Domain updated successfully")
          (applyUpdate site tgIn tiIn deIn now).domain
          (applyUpdate site tgIn tiIn deIn now).tld
          (applyUpdate site tgIn tiIn deIn now).target
          (applyUpdate site tgIn tiIn deIn now).title
          (applyUpdate site tgIn tiIn deIn now).description
          (applyUpdate site tgIn tiIn deIn now).lastAccessed⟩,
         saveReplace state (lowerS d) t (applyUpdate site tgIn tiIn deIn now)) := by
  simp only [updateRoute, truthy_some d hd, truthy_some t (reservedTlds_ne_nil t ht),
    truthy_some sk hsk, Bool.and_self, Bool.not_true, Bool.false_eq_true, if_false,
    Option.getD_some, ht, hfind, hauth, hval]

/-- C6: an authorized, validation-passing update applies exactly the
provided optional fields: absent fields are untouched, an explicit empty
string clears `title`/`description`, `lastAccessed` is refreshed, and
the identity, credential and index fields are unchanged. -/
theorem c6_update_frame (state : List Site) (d t sk : Str)
    (tgIn tiIn deIn : Option Str) (now : Nat) (site : Site)
    (hd : d ≠ []) (hsk : sk ≠ []) (ht : reservedTlds.contains t = true)
    (hfind : findSite state (lowerS d) t = some site)
    (hauth : bcryptCompare sk site.secretKeyHash = true)
    (hval : validateSite (applyUpdate site tgIn tiIn deIn now) = true) :
    (updateRoute state (some d) (some t) (some sk) tgIn tiIn deIn now).1.status = 200 ∧
    (updateRoute state (some d) (some t) (some sk) tgIn tiIn deIn now).2
      = saveReplace state (lowerS d) t (applyUpdate site tgIn tiIn deIn now) ∧
    (applyUpdate site tgIn tiIn deIn now).domain = site.domain ∧
    (applyUpdate site tgIn tiIn deIn now).tld = site.tld ∧
    (applyUpdate site tgIn tiIn deIn now).secretKeyHash = site.secretKeyHash ∧
    (applyUpdate site tgIn tiIn deIn now).verified = site.verified ∧
    (applyUpdate site tgIn tiIn deIn now).createdAt = site.createdAt ∧
    (applyUpdate site tgIn tiIn deIn now).keywords = site.keywords ∧
    (applyUpdate site tgIn tiIn deIn now).bodyText = site.bodyText ∧
    (applyUpdate site tgIn tiIn deIn now).lastAccessed = now ∧
    (tgIn = none → (applyUpdate site tgIn tiIn deIn now).target = site.target) ∧
    (tiIn = none → (applyUpdate site tgIn tiIn deIn now).title = site.title) ∧
    (deIn = none → (applyUpdate site tgIn tiIn deIn now).description = site.description) ∧
    (tiIn = some [] → (applyUpdate site tgIn tiIn deIn now).title = some []) ∧
    (deIn = some [] → (applyUpdate site tgIn tiIn deIn now).description = some []) := by
  have hupd := updateRoute_success state d t sk tgIn tiIn deIn now site
    hd hsk ht hfind hauth hval
  refine ⟨by rw [hupd], by rw [hupd], rfl, rfl, rfl, rfl, rfl, rfl, rfl, rfl,
    ?_, ?_, ?_, ?_, ?_⟩
  · rintro rfl
    rfl
  · rintro rfl
    rfl
  · rintro rfl
    rfl
  · rintro rfl
    rfl
  · rintro rfl
    rfl

/-- Witness for C6: clear the title with an explicit empty string while
leaving target and description absent. -/
theorem c6_update_frame_witness :
    (updateRoute [siteA] (some (str "myapp")) (some (str "vc"))
        (some (mkSecretKey (str "aa11bb22cc33dd44"))) none (some []) none 9).1.status = 200 ∧
    (applyUpdate siteA none (some []) none 9).title = some [] ∧
    (applyUpdate siteA none (some []) none 9).target = siteA.target := by
  have h := c6_update_frame [siteA] (str "myapp") (str "vc")
    (mkSecretKey (str "aa11bb22cc33dd44")) none (some []) none 9 siteA
    (by decide) (by decide) (by decide) (by decide) (by decide) (by decide)
  exact ⟨h.1, h.2.2.2.2.2.2.2.2.2.2.2.2.2.1 rfl, h.2.2.2.2.2.2.2.2.2.2.1 rfl⟩

/-- C7: update and delete check their failure modes in a fixed order —
missing required fields (400) before tag validation (400), a missing
record (404) before the secret is checked, and a non-verifying secret
(401) leaves the store untouched — and the four error responses are
pairwise distinguishable. -/
theorem c7_error_precedence (state : List Site)
    (domainIn tldIn secretIn targetIn titleIn descIn : Option Str) (now : Nat) :
    ((truthy domainIn && truthy tldIn && truthy secretIn) = false →
      updateRoute state domainIn tldIn secretIn targetIn titleIn descIn now
        = (⟨400, .err (str "Missing required fields")⟩, state) ∧
      deleteRoute state domainIn tldIn secretIn
        = (⟨400, .err (str "Missing required fields")⟩, state)) ∧
    ((truthy domainIn && truthy tldIn && truthy secretIn) = true →
      reservedTlds.contains (tldIn.getD []) = false →
      updateRoute state domainIn tldIn secretIn targetIn titleIn descIn now
        = (⟨400, .err (str "Invalid TLD")⟩, state) ∧
      deleteRoute state domainIn tldIn secretIn
        = (⟨400, .err (str "Invalid TLD")⟩, state)) ∧
    ((truthy domainIn && truthy tldIn && truthy secretIn) = true →
      reservedTlds.contains (tldIn.getD []) = true →
      findSite state (lowerS (domainIn.getD [])) (tldIn.getD []) = none →
      updateRoute state domainIn tldIn secretIn targetIn titleIn descIn now
        = (⟨404, .err (str "Domain not found")⟩, state) ∧
      deleteRoute state domainIn tldIn secretIn
        = (⟨404, .err (str "Domain not found")⟩, state)) ∧
    (∀ site : Site, (truthy domainIn && truthy tldIn && truthy secretIn) = true →
      reservedTlds.contains (tldIn.getD []) = true →
      findSite state (lowerS (domainIn.getD [])) (tldIn.getD []) = some site →
      bcryptCompare (secretIn.getD []) site.secretKeyHash = false →
      updateRoute state domainIn tldIn secretIn targetIn titleIn descIn now
        = (⟨401, .err (str "Invalid secret key")⟩, state) ∧
      deleteRoute state domainIn tldIn secretIn
        = (⟨401, .err (str "Invalid secret key")⟩, state)) ∧
    ((400 : Nat), str "Missing required fields") ≠ (400, str "Invalid TLD") ∧
    ((400 : Nat), str "Invalid TLD") ≠ (404, str "Domain not found") ∧
    ((404 : Nat), str "Domain not found") ≠ (401, str "Invalid secret key") ∧
    ((400 : Nat), str "Missing required fields") ≠ (401, str "Invalid secret key") := by
  refine ⟨fun h => ?_, fun h ht => ?_, fun h ht hf => ?_, fun site h ht hf hk => ?_,
    by decide, by decide, by decide, by decide⟩
  · constructor <;> simp [updateRoute, deleteRoute, h]
  · have ht' : ¬tldIn.getD [] ∈ reservedTlds := by simpa using ht
    constructor <;> simp [updateRoute, deleteRoute, h, ht']
  · have ht' : tldIn.getD [] ∈ reservedTlds := by simpa using ht
    constructor <;> simp [updateRoute, deleteRoute, h, ht', hf]
  · have ht' : tldIn.getD [] ∈ reservedTlds := by simpa using ht
    constructor <;> simp [updateRoute, deleteRoute, h, ht', hf, hk]

/-- Witness for C7: a wrong secret against a stored record yields 401 and
leaves the state unchanged. -/
theorem c7_error_precedence_witness :
    updateRoute [siteA] (some (str "myapp")) (some (str "vc")) (some (str "v12-wrong"))
        none none none 5
      = (⟨401, .err (str "Invalid secret key")⟩, [siteA]) ∧
    deleteRoute [siteA] (some (str "myapp")) (some (str "vc")) (some (str "v12-wrong"))
      = (⟨401, .err (str "Invalid secret key")⟩, [siteA]) :=
  (c7_error_precedence [siteA] (some (str "myapp")) (some (str "vc")) (some (str "v12-wrong"))
    none none none 5).2.2.2.1 siteA (by decide) (by decide) (by decide) (by decide)

/-- C10: an authorized update whose new target fails the schema's shape
check is rejected by `save()` validation, which the update route's
single catch converts into the generic 500 with no state change; the
same invalid target on register is surfaced as a typed 400. -/
theorem c10_invalid_target_update_500 (state : List Site) (d t sk tg : Str) (now : Nat)
    (site : Site)
    (hd : d ≠ []) (hsk : sk ≠ []) (ht : reservedTlds.contains t = true)
    (hfind : findSite state (lowerS d) t = some site)
    (hauth : bcryptCompare sk site.secretKeyHash = true)
    (htg : tg ≠ []) (hbad : validTarget tg = false) :
    updateRoute state (some d) (some t) (some sk) (some tg) none none now
      = (⟨500, .err (str "Server error")⟩, state) ∧
    (∀ (state2 : List Site) (d2 : Str) (ti2 de2 : Option Str) (rand : Str) (salt now2 : Nat),
      d2 ≠ [] → findSite state2 (lowerS d2) t = none →
      registerRoute state2 (some d2) (some t) (some tg) ti2 de2 rand salt now2
        = (⟨400, .err (str "Validation failed")⟩, state2)) := by
  have hval : validateSite (applyUpdate site (some tg) none none now) = false := by
    cases tg with
    | nil => exact absurd rfl htg
    | cons c cs => simp [validateSite, applyUpdate, hbad]
  constructor
  · simp only [updateRoute, truthy_some d hd, truthy_some t (reservedTlds_ne_nil t ht),
      truthy_some sk hsk, Bool.and_self, Bool.not_true, Bool.false_eq_true, if_false,
      Option.getD_some, ht, hfind, hauth, hval]
    simp
  · intro state2 d2 ti2 de2 rand salt now2 hd2 hfresh2
    have hvalr : validateSite (regSite d2 t tg ti2 de2 rand salt now2) = false := by
      simp [validateSite, regSite, hbad]
    simp only [registerRoute, truthy_some d2 hd2, truthy_some t (reservedTlds_ne_nil t ht),
      truthy_some tg htg, Bool.and_self, Bool.not_true, Bool.false_eq_true, if_false,
      Option.getD_some, ht, hfresh2, Option.isSome_none, hvalr]
    simp

/-- Witness for C10: the concrete target `"ftp://x"` fails the shape
check; the authorized update answers 500 and register answers 400. -/
theorem c10_invalid_target_update_500_witness :
    updateRoute [siteA] (some (str "myapp")) (some (str "vc"))
        (some (mkSecretKey (str "aa11bb22cc33dd44"))) (some (str "ftp://x")) none none 5
      = (⟨500, .err (str "Server error")⟩, [siteA]) ∧
    registerRoute [] (some (str "other")) (some (str "vc")) (some (str "ftp://x"))
        none none (str "bb") 2 3
      = (⟨400, .err (str "Validation failed")⟩, []) := by
  have h := c10_invalid_target_update_500 [siteA] (str "myapp") (str "vc")
    (mkSecretKey (str "aa11bb22cc33dd44")) (str "ftp://x") 5 siteA
    (by decide) (by decide) (by decide) (by decide) (by decide) (by decide) (by decide)
  exact ⟨h.1, h.2 [] (str "other") none none (str "bb") 2 3 (by decide) (by decide)⟩

/-! ### Claim C8: provenance of every string in a response -/

theorem mem_insertByScore (q : Str) (r y : Site) :
    ∀ l : List Site, y ∈ insertByScore q r l ↔ y = r ∨ y ∈ l
  | [] => by simp [insertByScore]
  | x :: xs => by
    rw [insertByScore]
    split
    · simp
    · rw [List.mem_cons, mem_insertByScore q r y xs]
      simp
      tauto

theorem mem_sortByScore (q : Str) (y : Site) :
    ∀ l : List Site, y ∈ sortByScore q l → y ∈ l
  | x :: xs, hy => by
    rw [sortByScore] at hy
    rcases (mem_insertByScore q x y _).mp hy with rfl | hy'
    · exact List.mem_cons_self _ _
    · exact List.mem_cons_of_mem _ (mem_sortByScore q y xs hy')

theorem mem_displayStrings (state : List Site) (r : Site) (hr : r ∈ state) (s : Str)
    (hs : s ∈ [r.domain, r.tld, r.target, rewriteRawBase r.target]
            ++ optL r.title ++ optL r.description) :
    s ∈ displayStrings state :=
  List.mem_flatMap.mpr ⟨r, hr, hs⟩

/-- C8: every string in a response of check, lookup, search, update or
delete comes from a fixed message, from an echoed non-secret request
field, or from a stored record's display fields and target — never from
`secretKeyHash` and never from the mutation secret; and each search
result is exactly the four-field display projection of a stored record. -/
theorem c8_response_provenance (state : List Site) :
    (∀ (dP : Str) (tP : Option Str) (s : Str),
      s ∈ bodyStrings (checkRoute state dP tP).body →
      s ∈ fixedMessages ∨ s = dP ∨ s = tP.getD []) ∧
    (∀ (dP tP : Str) (now : Nat) (s : Str),
      s ∈ bodyStrings (lookupRoute state dP tP now).1.body →
      s ∈ fixedMessages ∨ s ∈ displayStrings state) ∧
    (∀ (q : Option Str) (s : Str),
      s ∈ bodyStrings (searchRoute state q).body →
      s ∈ fixedMessages ∨ s ∈ displayStrings state) ∧
    (∀ (domainIn tldIn secretIn targetIn titleIn descIn : Option Str) (now : Nat) (s : Str),
      s ∈ bodyStrings (updateRoute state domainIn tldIn secretIn targetIn titleIn descIn now).1.body →
      s ∈ fixedMessages ∨ s ∈ optL targetIn ++ optL titleIn ++ optL descIn ∨
        s ∈ displayStrings state) ∧
    (∀ (domainIn tldIn secretIn : Option Str) (s : Str),
      s ∈ bodyStrings (deleteRoute state domainIn tldIn secretIn).1.body →
      s ∈ fixedMessages) ∧
    (∀ (q : Option Str) (items : List SearchItem),
      (searchRoute state q).body = .search items →
      ∀ i ∈ items, ∃ r ∈ state, i = ⟨r.domain, r.tld, r.title, r.description⟩) := by
  refine ⟨?_, ?_, ?_, ?_, ?_, ?_⟩
  · -- check
    intro dP tP s hs
    by_cases h1 : (!truthy tP || !reservedTlds.contains (tP.getD [])) = true
    · rw [checkRoute, if_pos h1] at hs
      simp [bodyStrings] at hs
      exact Or.inl (by rw [hs]; decide)
    · rw [checkRoute, if_neg h1] at hs
      simp only [bodyStrings, List.mem_cons, List.not_mem_nil, or_false] at hs
      rcases hs with rfl | rfl | rfl
      · exact Or.inr (Or.inl rfl)
      · exact Or.inr (Or.inr rfl)
      · by_cases hav : (findSite state (lowerS dP) (tP.getD [])).isNone = true <;>
          simp only [hav, if_pos, if_neg, Bool.not_eq_true, if_false] <;>
          exact Or.inl (by first
            | exact (by simp [hav]; decide : (if (findSite state (lowerS dP) (tP.getD [])).isNone = true then str "Domain is available" else str "Domain is already registered") ∈ fixedMessages)
            | decide)
  · -- lookup
    intro dP tP now s hs
    simp only [lookupRoute] at hs
    split at hs
    · simp [bodyStrings] at hs
      exact Or.inl (by rw [hs]; decide)
    · split at hs
      next heq =>
        simp [bodyStrings] at hs
        exact Or.inl (by rw [hs]; decide)
      next site heq =>
        have hsite : site ∈ state := List.mem_of_find?_eq_some heq
        split at hs
        · simp [bodyStrings] at hs
          exact Or.inl (by rw [hs]; decide)
        · simp only [bodyStrings, List.mem_append, List.mem_cons, List.not_mem_nil,
            or_false] at hs
          refine Or.inr (mem_displayStrings state site hsite s ?_)
          simp only [List.mem_append, List.mem_cons, List.not_mem_nil, or_false]
          tauto
  · -- search
    intro q s hs
    by_cases h1 : truthy q = true
    · rw [searchRoute, if_neg (by simp [h1])] at hs
      simp only [bodyStrings, List.mem_flatMap, List.mem_map] at hs
      obtain ⟨i, ⟨r, hr, rfl⟩, hsi⟩ := hs
      have hrstate : r ∈ state :=
        List.mem_of_mem_filter (mem_sortByScore _ _ _ (List.take_subset _ _ hr))
      refine Or.inr (mem_displayStrings state r hrstate s ?_)
      simp only [List.mem_append, List.mem_cons, List.not_mem_nil, or_false] at hsi ⊢
      tauto
    · rw [searchRoute, if_pos (by simp [h1])] at hs
      simp [bodyStrings] at hs
      exact Or.inl (by rw [hs]; decide)
  · -- update
    intro domainIn tldIn secretIn targetIn titleIn descIn now s hs
    simp only [updateRoute] at hs
    split at hs
    · simp [bodyStrings] at hs
      exact Or.inl (by rw [hs]; decide)
    · split at hs
      · simp [bodyStrings] at hs
        exact Or.inl (by rw [hs]; decide)
      · split at hs
        next heq =>
          simp [bodyStrings] at hs
          exact Or.inl (by rw [hs]; decide)
        next site heq =>
          have hsite : site ∈ state := List.mem_of_find?_eq_some heq
          split at hs
          · simp [bodyStrings] at hs
            exact Or.inl (by rw [hs]; decide)
          · split at hs
            · simp [bodyStrings] at hs
              exact Or.inl (by rw [hs]; decide)
            · simp only [bodyStrings, List.mem_append, List.mem_cons, List.not_mem_nil,
                or_false] at hs
              rcases hs with ((rfl | rfl | rfl | rfl) | hti) | hde
              · exact Or.inl (by decide)
              · exact Or.inr (Or.inr (mem_displayStrings state site hsite _ (by simp [applyUpdate])))
              · exact Or.inr (Or.inr (mem_displayStrings state site hsite _ (by simp [applyUpdate])))
              · -- target: either the request's target or the stored one
                rcases targetIn with _ | tg
                · exact Or.inr (Or.inr (mem_displayStrings state site hsite _ (by simp [applyUpdate])))
                · by_cases htg : tg.isEmpty = true
                  · exact Or.inr (Or.inr (mem_displayStrings state site hsite _ (by simp [applyUpdate, htg])))
                  · exact Or.inr (Or.inl (by simp [applyUpdate, htg, optL]))
              · -- title
                rcases titleIn with _ | ti
                · rcases hti' : site.title with _ | tv
                  · simp [applyUpdate, optL, hti'] at hti
                  · refine Or.inr (Or.inr (mem_displayStrings state site hsite s ?_))
                    simp [applyUpdate, optL, hti'] at hti
                    simp [optL, hti', hti]
                · refine Or.inr (Or.inl ?_)
                  simp [applyUpdate, optL] at hti
                  simp [optL, hti]
              · -- description
                rcases descIn with _ | de
                · rcases hde' : site.description with _ | dv
                  · simp [applyUpdate, optL, hde'] at hde
                  · refine Or.inr (Or.inr (mem_displayStrings state site hsite s ?_))
                    simp [applyUpdate, optL, hde'] at hde
                    simp [optL, hde', hde]
                · refine Or.inr (Or.inl ?_)
                  simp [applyUpdate, optL] at hde
                  simp [optL, hde]
  · -- delete
    intro domainIn tldIn secretIn s hs
    simp only [deleteRoute] at hs
    split at hs
    · simp [bodyStrings] at hs
      rw [hs]; decide
    · split at hs
      · simp [bodyStrings] at hs
        rw [hs]; decide
      · split at hs
        next heq =>
          simp [bodyStrings] at hs
          rw [hs]; decide
        next site heq =>
          split at hs
          · simp [bodyStrings] at hs
            rw [hs]; decide
          · simp [bodyStrings] at hs
            rw [hs]; decide
  · -- search projection
    intro q items hitems i hi
    by_cases h1 : truthy q = true
    · rw [searchRoute, if_neg (by simp [h1])] at hitems
      simp only [Body.search.injEq] at hitems
      subst hitems
      obtain ⟨r, hr, rfl⟩ := List.mem_map.mp hi
      exact ⟨r, List.mem_of_mem_filter (mem_sortByScore _ _ _ (List.take_subset _ _ hr)), rfl⟩
    · rw [searchRoute, if_pos (by simp [h1])] at hitems
      exact absurd hitems (by simp)

/-- Witness for C8 at a concrete state and request. -/
theorem c8_response_provenance_witness :
    str "Domain not found"
      ∈ bodyStrings (lookupRoute [siteA] (str "missing") (str "vc") 3).1.body ∧
    (str "Domain not found" ∈ fixedMessages ∨
      str "Domain not found" ∈ displayStrings [siteA]) :=
  ⟨by decide, (c8_response_provenance [siteA]).2.1 (str "missing") (str "vc") 3
    (str "Domain not found") (by decide)⟩

end V12
